import Mathlib

/-!
Verification of the CV test-data generator
(`src/utils/Test_data_generator.py`, class `CVTestDataGenerator`).

The generator reads an Excel skill matrix (row 1: category headers, row 2:
skill headers, rows 3+: candidate rows), extracts per-row skill sets,
renders a fixed-layout CV content string, and assembles/serializes a
matching request object.  The worksheet is modelled as a list of rows,
each row a list of cells; a cell is `Option String` (`none` models a cell
openpyxl reports as `None`).  All functions below are translated from the
Python source; spec-modelled definitions are marked as such in their doc
comments.
-/

namespace CVGen

/-- Excel cell value as seen through openpyxl: a string, or `none` for an
empty/absent cell (Python `None`). -/
abbrev Cell := Option String

/-- Python `str()` applied to a cell value; `None` prints as `"None"`. -/
def pyStr : Cell → String
  | some s => s
  | none => "None"

/-- Python truthiness of a cell value: `None` and `""` are falsy. -/
def truthy : Cell → Bool
  | some s => !(s == "")
  | none => false

/-- Whitespace characters removed by Python `str.strip` (ASCII range). -/
def isPySpace (c : Char) : Bool :=
  c == ' ' || c == '\t' || c == '\n' || c == '\x0d' || c == '\x0b' || c == '\x0c'

/-- Python `str.strip`. -/
def pyStrip (s : String) : String :=
  String.mk (((s.data.dropWhile isPySpace).reverse.dropWhile isPySpace).reverse)

/-- Python `str.lower` (ASCII letters). -/
def pyLower (s : String) : String :=
  String.mk (s.data.map Char.toLower)

/-- Presence test used by `extract_candidate_skills`:
`str(cell_value).strip().lower() == "x"`. -/
def isX (c : Cell) : Bool :=
  pyLower (pyStrip (pyStr c)) == "x"

/-- List-of-characters prefix test (used for the substring test below). -/
def beginsWith : List Char → List Char → Bool
  | [], _ => true
  | _ :: _, [] => false
  | a :: as, b :: bs => a == b && beginsWith as bs

/-- List-of-characters substring occurrence test. -/
def hasSub (nd : List Char) : List Char → Bool
  | [] => nd.isEmpty
  | c :: cs => beginsWith nd (c :: cs) || hasSub nd cs

/-- Python `needle in haystack` on strings. -/
def pyContains (needle hay : String) : Bool :=
  hasSub needle.data hay.data

/-- One worksheet row. -/
abbrev SheetRow := List Cell

/-- The worksheet grid. -/
abbrev Sheet := List SheetRow

/-- openpyxl cell read, 1-based row/column; cells outside the grid read as
`None`. -/
def cellAt (s : Sheet) (r c : Nat) : Cell :=
  (s.getD (r - 1) []).getD (c - 1) none

/-- Write into a row at 0-based position, growing the row with empty cells. -/
def setRowAt : SheetRow → Nat → Cell → SheetRow
  | [], 0, v => [v]
  | [], c + 1, v => none :: setRowAt [] c v
  | _ :: rest, 0, v => v :: rest
  | x :: rest, c + 1, v => x :: setRowAt rest c v

/-- Write into the grid at 0-based position, growing the grid as needed. -/
def setAt : Sheet → Nat → Nat → Cell → Sheet
  | [], 0, c, v => [setRowAt [] c v]
  | [], r + 1, c, v => [] :: setAt [] r c v
  | row :: rest, 0, c, v => setRowAt row c v :: rest
  | row :: rest, r + 1, c, v => row :: setAt rest r c v

/-- openpyxl cell write, 1-based row/column. -/
def setCell (s : Sheet) (r c : Nat) (v : Cell) : Sheet :=
  setAt s (r - 1) (c - 1) v

/-- Largest populated column extent of the grid. -/
def colCount (s : Sheet) : Nat :=
  s.foldr (fun row m => max row.length m) 0

/-- openpyxl `max_column` (at least 1). -/
def maxCol (s : Sheet) : Nat := max 1 (colCount s)

/-- openpyxl `max_row` (at least 1). -/
def maxRow (s : Sheet) : Nat := max 1 s.length

/-- Static candidate id (`STATIC_CV_ID`). -/
def STATIC_CV_ID : String := "12788"

/-- Static candidate name (`STATIC_NAME`). -/
def STATIC_NAME : String := "平林 直美"

/-- Static candidate furigana (`STATIC_FURIGANA`). -/
def STATIC_FURIGANA : String := "ひらばやし なおみ"

/-- Static candidate birthdate (`STATIC_BIRTHDATE`). -/
def STATIC_BIRTHDATE : String := "1977-07-20"

/-- Static candidate gender (`STATIC_GENDER`). -/
def STATIC_GENDER : String := "女"

/-- Static candidate address (`STATIC_ADDRESS`). -/
def STATIC_ADDRESS : String := "東京都国分寺市西恋ヶ窪2-8-11"

/-- Static job-description content (`STATIC_JD_CONTENT`). -/
def STATIC_JD_CONTENT : String :=
  "美術科 非常勤講師（中高一貫校）／勤務地: 東京都世田谷区／コマ数: 週13コマ／開始: 11月から\n必須: 中学・高校の美術教員免許。\n補足: ICT導入校。"

/-- Static `top_k` (`STATIC_TOP_K`). -/
def STATIC_TOP_K : Int := 1

/-- Header text of the generated-result column (`RESULT_COLUMN_HEADER`). -/
def RESULT_COLUMN_HEADER : String := "cv generated result"

/-- Row-2 header cleanup from `load_excel`: strip when the raw value is
truthy, else the empty string. -/
def headerClean (c : Cell) : String :=
  if truthy c then pyStrip (pyStr c) else ""

/-- The `skill_headers` list read from row 2 by `load_excel`, one cleaned
entry per column `1 .. max_column`. -/
def skillHeaders0 (s : Sheet) : List String :=
  (List.range (maxCol s)).map (fun i => headerClean (cellAt s 2 (i + 1)))

/-- First index satisfying a predicate (the scan in `_ensure_result_column`). -/
def findHeaderIdx (p : String → Bool) : List String → Option Nat
  | [] => none
  | h :: t => if p h then some 0 else (findHeaderIdx p t).map (· + 1)

/-- State produced by `load_excel`: the worksheet (with the result-column
header written into row 2 when it was absent), the skill headers and the
1-based result column index. -/
structure LoadState where
  ws : Sheet
  skillHeaders : List String
  resultCol : Nat
  deriving Repr, DecidableEq

/-- Predicate of `_ensure_result_column`:
`header and RESULT_COLUMN_HEADER in str(header).lower()`. -/
def isResultHeader (h : String) : Bool :=
  !(h == "") && pyContains RESULT_COLUMN_HEADER (pyLower h)

/-- `load_excel` followed by `_ensure_result_column`. -/
def loadExcel (s : Sheet) : LoadState :=
  let hs := skillHeaders0 s
  match findHeaderIdx isResultHeader hs with
  | some i => ⟨s, hs, i + 1⟩
  | none =>
      ⟨setCell s 2 (hs.length + 1) (some RESULT_COLUMN_HEADER),
       hs ++ [RESULT_COLUMN_HEADER], hs.length + 1⟩

/-- Result of `extract_candidate_skills`: the dictionary with keys
`certificate` and `university`. -/
structure Skills where
  certificate : List String
  university : List String
  deriving Repr, DecidableEq

/-- The certificate loop of `extract_candidate_skills` (columns 1-5): skip
the result column, test the cell for `"x"`, then read the skill header
(a Python `IndexError` is modelled as `Except.error`). -/
def extractCertLoop (hd : List String) (rc : Nat) (ws : Sheet) (r : Nat) :
    List Nat → Except String (List String)
  | [] => .ok []
  | c :: cs =>
    if c == rc then extractCertLoop hd rc ws r cs
    else if isX (cellAt ws r c) then
      match hd.get? (c - 1) with
      | none => .error "IndexError"
      | some h => do
          let rest ← extractCertLoop hd rc ws r cs
          pure (if h == "" then rest else h :: rest)
    else extractCertLoop hd rc ws r cs

/-- The university loop of `extract_candidate_skills` (columns 6-9): same as
the certificate loop, with the extra bound check
`if col_idx > len(self.skill_headers): break`. -/
def extractUnivLoop (hd : List String) (rc : Nat) (ws : Sheet) (r : Nat) :
    List Nat → Except String (List String)
  | [] => .ok []
  | c :: cs =>
    if c == rc then extractUnivLoop hd rc ws r cs
    else if hd.length < c then .ok []
    else if isX (cellAt ws r c) then
      match hd.get? (c - 1) with
      | none => .error "IndexError"
      | some h => do
          let rest ← extractUnivLoop hd rc ws r cs
          pure (if h == "" then rest else h :: rest)
    else extractUnivLoop hd rc ws r cs

/-- Certificate columns A-E (`range(1, 6)`). -/
def certCols : List Nat := [1, 2, 3, 4, 5]

/-- University columns F-I (`range(6, 10)`). -/
def univCols : List Nat := [6, 7, 8, 9]

/-- `extract_candidate_skills(row_idx)`. -/
def extractCandidateSkills (hd : List String) (rc : Nat) (ws : Sheet) (r : Nat) :
    Except String Skills := do
  let cert ← extractCertLoop hd rc ws r certCols
  let univ ← extractUnivLoop hd rc ws r univCols
  pure ⟨cert, univ⟩

/-- Python `', '.join`. -/
def joinComma (l : List String) : String := String.intercalate ", " l

/-- `build_cv_content(skills)`: the fixed five profile lines, then the
optional certificate and university lines. -/
def buildCvContent (skills : Skills) : String :=
  let content := "氏名: " ++ STATIC_NAME ++ "\n"
  let content := content ++ ("フリガナ: " ++ STATIC_FURIGANA ++ "\n")
  let content := content ++ ("性別: " ++ STATIC_GENDER ++ "\n")
  let content := content ++ ("生年月日: " ++ STATIC_BIRTHDATE ++ "\n")
  let content := content ++ ("住所: " ++ STATIC_ADDRESS ++ "\n")
  let content :=
    if skills.certificate.isEmpty then content
    else content ++ ("資格・免許: " ++ joinComma skills.certificate ++ "\n")
  let content :=
    if skills.university.isEmpty then content
    else content ++ ("大学名: " ++ joinComma skills.university ++ "\n")
  content

/-- JSON values as built by the generator (a float is carried as its Python
`repr` literal, e.g. "0.4", since the file only ever serializes the fixed
weight constants). -/
inductive JValue where
  | str (s : String)
  | num (lit : String)
  | arr (xs : List JValue)
  | obj (kvs : List (String × JValue))
  deriving Repr

/-- Lower-case hexadecimal digit. -/
def hexDigit (n : Nat) : Char :=
  if n < 10 then Char.ofNat (48 + n) else Char.ofNat (87 + n)

/-- JSON string escaping as done by `json.dumps(..., ensure_ascii=False)`. -/
def escChar (c : Char) : String :=
  if c == '"' then "\\\""
  else if c == '\\' then "\\\\"
  else if c == '\n' then "\\n"
  else if c == '\x0d' then "\\r"
  else if c == '\t' then "\\t"
  else if c == '\x08' then "\\b"
  else if c == '\x0c' then "\\f"
  else if c.toNat < 32 then
    "\\u00" ++ String.singleton (hexDigit (c.toNat / 16)) ++
      String.singleton (hexDigit (c.toNat % 16))
  else String.singleton c

/-- A JSON string literal. -/
def quoteStr (s : String) : String :=
  "\"" ++ String.join (s.data.map escChar) ++ "\""

/-- Indentation. -/
def spaces (n : Nat) : String := String.mk (List.replicate n ' ')

mutual

/-- `json.dumps(v, ensure_ascii=False, indent=2)` at a given indent level. -/
def dumpsVal (ind : Nat) : JValue → String
  | .str s => quoteStr s
  | .num l => l
  | .arr [] => "[]"
  | .arr (x :: xs) =>
      "[\n" ++ dumpsItems (ind + 2) (x :: xs) ++ "\n" ++ spaces ind ++ "]"
  | .obj [] => "\x7b\x7d"
  | .obj (kv :: kvs) =>
      "\x7b\n" ++ dumpsPairs (ind + 2) (kv :: kvs) ++ "\n" ++ spaces ind ++ "\x7d"

/-- Array elements, comma-and-newline separated. -/
def dumpsItems (ind : Nat) : List JValue → String
  | [] => ""
  | [x] => spaces ind ++ dumpsVal ind x
  | x :: y :: xs =>
      spaces ind ++ dumpsVal ind x ++ ",\n" ++ dumpsItems ind (y :: xs)

/-- Object members, comma-and-newline separated. -/
def dumpsPairs (ind : Nat) : List (String × JValue) → String
  | [] => ""
  | [(k, v)] => spaces ind ++ quoteStr k ++ ": " ++ dumpsVal ind v
  | (k, v) :: p :: ps =>
      spaces ind ++ quoteStr k ++ ": " ++ dumpsVal ind v ++ ",\n" ++
        dumpsPairs ind (p :: ps)

end

/-- `json.dumps(v, ensure_ascii=False, indent=2)`. -/
def dumps (v : JValue) : String := dumpsVal 0 v

/-- One entry of `list_cv` (the dictionary returned by
`generate_single_cv`). -/
structure CvData where
  cvId : String
  content : String
  deriving Repr, DecidableEq

/-- The JSON object for one CV. -/
def cvJson (cv : CvData) : JValue :=
  .obj [("cv_id", .str cv.cvId), ("content", .str cv.content)]

/-- `STATIC_CUSTOM_WEIGHTS` as JSON (float literals as Python prints them). -/
def customWeightsJson : JValue :=
  .obj [("license_score", .num "0.4"), ("hours_score", .num "0.2"),
        ("reliability_score", .num "0.2"), ("competency_score", .num "0.2")]

/-- The JSON structure written by `_update_result_column` for a single CV. -/
def singleCvJson (cvId content : String) : JValue :=
  .obj [("list_cv", .arr [cvJson ⟨cvId, content⟩]),
        ("jd", .obj [("content", .str STATIC_JD_CONTENT)]),
        ("top_k", .num (toString STATIC_TOP_K)),
        ("custom_weights", customWeightsJson)]

/-- `generate_single_cv(row_idx, update_excel)`: extract, render, and (when
updating) write the result JSON into the result column of the row. -/
def generateSingleCv (hd : List String) (rc : Nat) (ws : Sheet) (r : Nat)
    (updateExcel : Bool) : Except String (CvData × Sheet) := do
  let skills ← extractCandidateSkills hd rc ws r
  let content := buildCvContent skills
  let ws' :=
    if updateExcel then
      setCell ws r rc (some (dumps (singleCvJson STATIC_CV_ID content)))
    else ws
  pure (⟨STATIC_CV_ID, content⟩, ws')

/-- The `has_data` test of `generate_all_cvs`: some cell of the row outside
the result column is truthy. -/
def hasData (ws : Sheet) (rc : Nat) (r : Nat) : Bool :=
  (List.range' 1 (maxCol ws)).any (fun c => !(c == rc) && truthy (cellAt ws r c))

/-- The candidate loop of `generate_all_cvs`, threading the worksheet state
through the per-row result-column updates. -/
def allLoop (hd : List String) (rc : Nat) (u : Bool) :
    List Nat → Sheet → Except String (List CvData × Sheet)
  | [], ws => .ok ([], ws)
  | r :: rs, ws =>
    if hasData ws rc r then do
      let (cv, ws') ← generateSingleCv hd rc ws r u
      let (cvs, ws'') ← allLoop hd rc u rs ws'
      pure (cv :: cvs, ws'')
    else allLoop hd rc u rs ws

/-- Candidate rows visited by `generate_all_cvs`: `range(3, max_row + 1)`. -/
def rowRange (ws : Sheet) : List Nat := List.range' 3 (maxRow ws - 2)

/-- `generate_all_cvs(update_excel=u)`: the run result together with the
on-disk file state (the workbook is saved only when `u` is true; on an
uncaught exception nothing is saved). -/
def generateAllCvs (s : Sheet) (u : Bool) : Except String (List CvData) × Sheet :=
  match allLoop (loadExcel s).skillHeaders (loadExcel s).resultCol u
      (rowRange (loadExcel s).ws) (loadExcel s).ws with
  | .ok (cvs, ws') => (.ok cvs, if u then ws' else s)
  | .error e => (.error e, s)

/-- `generate_cv_by_index(candidate_index, update_excel)`: the result and the
on-disk file state. -/
def generateCvByIndex (s : Sheet) (idx : Nat) (u : Bool) :
    Except String CvData × Sheet :=
  if maxRow (loadExcel s).ws < idx + 3 then
    (.error ("Candidate index " ++ toString idx ++ " out of range"), s)
  else
    match generateSingleCv (loadExcel s).skillHeaders (loadExcel s).resultCol
        (loadExcel s).ws (idx + 3) u with
    | .ok (cv, ws') => (.ok cv, if u then ws' else s)
    | .error e => (.error e, s)

/-- The complete output object built by `generate_all_cvs`. -/
def outputJson (cvs : List CvData) : JValue :=
  .obj [("list_cv", .arr (cvs.map cvJson)),
        ("jd", .obj [("content", .str STATIC_JD_CONTENT)]),
        ("top_k", .num (toString STATIC_TOP_K)),
        ("custom_weights", customWeightsJson)]

/-- The serialized request string written to the output file by
`generate_all_cvs`. -/
def requestString (s : Sheet) (u : Bool) : Except String String :=
  (generateAllCvs s u).1.map (fun cvs => dumps (outputJson cvs))

/-- Modelled from the spec: the `WeightConfig` of the ScoreEngine, whose
implementation is not under `src/` (only the weight names and the static
constants `STATIC_TOP_K`/`STATIC_CUSTOM_WEIGHTS` appear in the source).
Four non-negative weights, one per sub-score; floats are modelled as
rationals. -/
structure WeightConfig where
  license_score : ℚ
  hours_score : ℚ
  reliability_score : ℚ
  competency_score : ℚ
  deriving Repr, DecidableEq

/-- Modelled from the spec: the four per-candidate sub-scores computed by the
ScoreEngine, each in the interval from 0 to 1. -/
structure SubScores where
  license : ℚ
  hours : ℚ
  reliability : ℚ
  competency : ℚ
  deriving Repr, DecidableEq

/-- Sum of the configured weights. -/
def weightSum (w : WeightConfig) : ℚ :=
  w.license_score + w.hours_score + w.reliability_score + w.competency_score

/-- Weighted total of the sub-scores. -/
def weightedTotal (w : WeightConfig) (s : SubScores) : ℚ :=
  w.license_score * s.license + w.hours_score * s.hours +
    w.reliability_score * s.reliability + w.competency_score * s.competency

/-- Modelled from the spec: the ScoreEngine combination step, combined score
equal to the weighted total divided by the weight sum, failing with
`InvalidWeightConfigError` unless the weight sum is positive. -/
def combinedScore (w : WeightConfig) (s : SubScores) : Except String ℚ :=
  if 0 < weightSum w then .ok (weightedTotal w s / weightSum w)
  else .error "InvalidWeightConfigError"

/-- `STATIC_CUSTOM_WEIGHTS` (0.4, 0.2, 0.2, 0.2) as a weight configuration. -/
def staticCustomWeights : WeightConfig :=
  ⟨2 / 5, 1 / 5, 1 / 5, 1 / 5⟩

/-! ### Grid lemmas -/

theorem getD_setRowAt_ne (ci : Nat) (row : SheetRow) (v : Cell) (cj : Nat)
    (h : cj ≠ ci) : (setRowAt row ci v).getD cj none = row.getD cj none := by
  induction ci generalizing row cj with
  | zero =>
    cases row with
    | nil =>
      cases cj with
      | zero => omega
      | succ n => simp [setRowAt, List.getD]
    | cons x rest =>
      cases cj with
      | zero => omega
      | succ n => simp [setRowAt, List.getD]
  | succ c ih =>
    cases row with
    | nil =>
      cases cj with
      | zero => simp [setRowAt, List.getD]
      | succ n =>
        simp only [setRowAt, List.getD_cons_succ]
        exact ih [] n (by omega)
    | cons x rest =>
      cases cj with
      | zero => simp [setRowAt, List.getD]
      | succ n =>
        simp only [setRowAt, List.getD_cons_succ]
        exact ih rest n (by omega)

theorem length_setRowAt (ci : Nat) (row : SheetRow) (v : Cell) :
    (setRowAt row ci v).length = max row.length (ci + 1) := by
  induction ci generalizing row with
  | zero => cases row <;> simp [setRowAt]
  | succ c ih =>
    cases row with
    | nil => simp [setRowAt, ih]
    | cons x rest => simp [setRowAt, ih]; omega

theorem getD_setAt_row_ne (ri : Nat) (s : Sheet) (ci : Nat) (v : Cell) (rj : Nat)
    (h : rj ≠ ri) : (setAt s ri ci v).getD rj [] = s.getD rj [] := by
  induction ri generalizing s rj with
  | zero =>
    cases s with
    | nil =>
      cases rj with
      | zero => omega
      | succ n => simp [setAt, List.getD]
    | cons row rest =>
      cases rj with
      | zero => omega
      | succ n => simp [setAt, List.getD]
  | succ r ih =>
    cases s with
    | nil =>
      cases rj with
      | zero => simp [setAt, List.getD]
      | succ n =>
        simp only [setAt, List.getD_cons_succ]
        exact ih [] n (by omega)
    | cons row rest =>
      cases rj with
      | zero => simp [setAt, List.getD]
      | succ n =>
        simp only [setAt, List.getD_cons_succ]
        exact ih rest n (by omega)

theorem getD_setAt_row_eq (ri : Nat) (s : Sheet) (ci : Nat) (v : Cell) :
    (setAt s ri ci v).getD ri [] = setRowAt (s.getD ri []) ci v := by
  induction ri generalizing s with
  | zero => cases s <;> simp [setAt, List.getD]
  | succ r ih =>
    cases s with
    | nil =>
      simp only [setAt, List.getD_cons_succ]
      exact ih []
    | cons row rest =>
      simp only [setAt, List.getD_cons_succ]
      exact ih rest

theorem length_setAt (ri : Nat) (s : Sheet) (ci : Nat) (v : Cell) :
    (setAt s ri ci v).length = max s.length (ri + 1) := by
  induction ri generalizing s with
  | zero => cases s <;> simp [setAt]
  | succ r ih =>
    cases s with
    | nil => simp [setAt, ih]
    | cons row rest => simp [setAt, ih]; omega

theorem colCount_setAt (ri : Nat) (s : Sheet) (ci : Nat) (v : Cell) :
    colCount (setAt s ri ci v) = max (colCount s) (ci + 1) := by
  induction ri generalizing s with
  | zero =>
    cases s with
    | nil => simp [setAt, colCount, length_setRowAt]
    | cons row rest =>
      show max (setRowAt row ci v).length (colCount rest) = _
      rw [length_setRowAt]
      show _ = max (max row.length (colCount rest)) (ci + 1)
      omega
  | succ r ih =>
    cases s with
    | nil =>
      show max (List.length []) (colCount (setAt [] r ci v)) = _
      rw [ih]
      simp [colCount]
    | cons row rest =>
      show max row.length (colCount (setAt rest r ci v)) = _
      rw [ih]
      show _ = max (max row.length (colCount rest)) (ci + 1)
      omega

theorem cellAt_setCell_ne (s : Sheet) (r c : Nat) (v : Cell) (r' c' : Nat)
    (hc : 1 ≤ c) (hc' : 1 ≤ c') (h : c' ≠ c) :
    cellAt (setCell s r c v) r' c' = cellAt s r' c' := by
  unfold cellAt setCell
  by_cases hr : r' - 1 = r - 1
  · rw [hr, getD_setAt_row_eq, getD_setRowAt_ne _ _ _ _ (by omega)]
  · rw [getD_setAt_row_ne _ _ _ _ _ hr]

theorem colCount_setCell (s : Sheet) (r c : Nat) (v : Cell) (hc : 1 ≤ c) :
    colCount (setCell s r c v) = max (colCount s) c := by
  unfold setCell
  rw [colCount_setAt]
  congr 1
  omega

theorem getD_length_le_colCount (s : Sheet) (r : Nat) :
    (s.getD r []).length ≤ colCount s := by
  induction s generalizing r with
  | nil => simp [List.getD, colCount]
  | cons row rest ih =>
    cases r with
    | zero =>
      show row.length ≤ max row.length (colCount rest)
      omega
    | succ n =>
      simp only [List.getD_cons_succ]
      exact le_trans (ih n) (by show colCount rest ≤ max row.length (colCount rest); omega)

theorem cellAt_eq_none (s : Sheet) (r c : Nat) (h : colCount s < c) :
    cellAt s r c = none := by
  unfold cellAt
  apply List.getD_eq_default
  have := getD_length_le_colCount s (r - 1)
  omega

theorem le_colCount_of_truthy (s : Sheet) (r c : Nat)
    (h : truthy (cellAt s r c) = true) : c ≤ colCount s := by
  by_contra h'
  push_neg at h'
  rw [cellAt_eq_none s r c h'] at h
  simp [truthy] at h

theorem isX_none : isX none = false := by decide

theorem le_colCount_of_isX (s : Sheet) (r c : Nat)
    (h : isX (cellAt s r c) = true) : c ≤ colCount s := by
  by_contra h'
  push_neg at h'
  rw [cellAt_eq_none s r c h'] at h
  rw [isX_none] at h
  exact Bool.false_ne_true h

/-! ### Load-state lemmas -/

theorem get_opt_eq_some_getD (l : List String) (i : Nat) (h : i < l.length) :
    l.get? i = some (l.getD i "") := by
  induction l generalizing i with
  | nil => simp at h
  | cons x xs ih =>
    cases i with
    | zero => rfl
    | succ n =>
      simp only [List.get?, List.getD_cons_succ]
      exact ih n (by simpa using h)

theorem skillHeaders0_length (s : Sheet) : (skillHeaders0 s).length = maxCol s := by
  simp [skillHeaders0]

theorem skillHeaders0_getD (s : Sheet) (i : Nat) (h : i < maxCol s) :
    (skillHeaders0 s).getD i "" = headerClean (cellAt s 2 (i + 1)) := by
  unfold skillHeaders0
  rw [List.getD_eq_getElem?_getD, List.getElem?_map, List.getElem?_range h]
  rfl

theorem findHeaderIdx_some (p : String → Bool) (l : List String) (i : Nat)
    (h : findHeaderIdx p l = some i) : i < l.length ∧ p (l.getD i "") = true := by
  induction l generalizing i with
  | nil => simp [findHeaderIdx] at h
  | cons x xs ih =>
    by_cases hp : p x
    · simp only [findHeaderIdx, if_pos hp] at h
      cases h
      simpa [List.getD] using hp
    · simp only [findHeaderIdx, if_neg hp] at h
      cases hi : findHeaderIdx p xs with
      | none => rw [hi] at h; simp at h
      | some j =>
        rw [hi] at h
        simp only [Option.map_some'] at h
        obtain ⟨hj, hpj⟩ := ih j hi
        cases h
        constructor
        · simpa using Nat.succ_lt_succ hj
        · simpa [List.getD_cons_succ] using hpj

theorem truthy_of_headerClean_ne (c : Cell) (h : headerClean c ≠ "") :
    truthy c = true := by
  unfold headerClean at h
  by_cases ht : truthy c
  · exact ht
  · simp [ht] at h

/-- The facts `generate_*` needs about the state `load_excel` produces: the
result column is a real column of the loaded worksheet, and the worksheet is
no wider than the skill-header list. -/
theorem maxCol_eq (s : Sheet) : maxCol s = max 1 (colCount s) := rfl

theorem loadExcel_facts (s : Sheet) :
    1 ≤ (loadExcel s).resultCol ∧
    (loadExcel s).resultCol ≤ colCount (loadExcel s).ws ∧
    colCount (loadExcel s).ws ≤ (loadExcel s).skillHeaders.length := by
  have hlen : (skillHeaders0 s).length = max 1 (colCount s) := by
    rw [skillHeaders0_length, maxCol_eq]
  cases hf : findHeaderIdx isResultHeader (skillHeaders0 s) with
  | some i =>
    obtain ⟨hi, hp⟩ := findHeaderIdx_some _ _ _ hf
    have hne : (skillHeaders0 s).getD i "" ≠ "" := by
      intro he
      rw [he] at hp
      simp [isResultHeader] at hp
    rw [skillHeaders0_getD s i (by rw [maxCol_eq]; omega)] at hne
    have htr : truthy (cellAt s 2 (i + 1)) = true := truthy_of_headerClean_ne _ hne
    have hle : i + 1 ≤ colCount s := le_colCount_of_truthy _ _ _ htr
    simp only [loadExcel, hf]
    refine ⟨by omega, by omega, ?_⟩
    rw [hlen]
    omega
  | none =>
    have h1 : colCount (setCell s 2 ((skillHeaders0 s).length + 1)
        (some RESULT_COLUMN_HEADER)) = max (colCount s) ((skillHeaders0 s).length + 1) :=
      colCount_setCell _ _ _ _ (by omega)
    simp only [loadExcel, hf]
    rw [h1, List.length_append, hlen]
    simp only [List.length_cons, List.length_nil]
    omega

/-! ### Extraction characterization -/

/-- Condition under which `extract_candidate_skills` records a column: it is
not the result column, its cell is marked `"x"` (trimmed, case-insensitive),
and its skill header is non-empty. -/
def colPresent (hd : List String) (rc : Nat) (ws : Sheet) (r c : Nat) : Bool :=
  !(c == rc) && isX (cellAt ws r c) && !(hd.getD (c - 1) "" == "")

/-- The headers `extract_candidate_skills` collects from a list of columns. -/
def extractedNames (hd : List String) (rc : Nat) (ws : Sheet) (r : Nat)
    (cols : List Nat) : List String :=
  (cols.filter (colPresent hd rc ws r)).map (fun c => hd.getD (c - 1) "")

theorem colPresent_false_rc (hd : List String) (rc : Nat) (ws : Sheet) (r c : Nat)
    (h : (c == rc) = true) : colPresent hd rc ws r c = false := by
  simp [colPresent, h]

theorem colPresent_false_notX (hd : List String) (rc : Nat) (ws : Sheet) (r c : Nat)
    (h : isX (cellAt ws r c) = false) : colPresent hd rc ws r c = false := by
  simp [colPresent, h]

theorem colPresent_false_empty (hd : List String) (rc : Nat) (ws : Sheet) (r c : Nat)
    (h : (hd.getD (c - 1) "" == "") = true) : colPresent hd rc ws r c = false := by
  simp only [colPresent, h, Bool.not_true, Bool.and_false]

theorem colPresent_true (hd : List String) (rc : Nat) (ws : Sheet) (r c : Nat)
    (h1 : (c == rc) = false) (h2 : isX (cellAt ws r c) = true)
    (h3 : (hd.getD (c - 1) "" == "") = false) : colPresent hd rc ws r c = true := by
  simp only [colPresent, h1, h2, h3, Bool.not_false, Bool.and_true, Bool.true_and]

theorem ok_bind {α β : Type} (a : α) (f : α → Except String β) :
    (Except.ok a >>= f) = f a := rfl

theorem extractCertLoop_eq (hd : List String) (rc : Nat) (ws : Sheet) (r : Nat)
    (cols : List Nat)
    (hx : ∀ c ∈ cols, isX (cellAt ws r c) = true → c ≤ hd.length)
    (h1 : ∀ c ∈ cols, 1 ≤ c) :
    extractCertLoop hd rc ws r cols = .ok (extractedNames hd rc ws r cols) := by
  induction cols with
  | nil => rfl
  | cons c cs ih =>
    have ihh := ih (fun d hd' => hx d (List.mem_cons_of_mem _ hd'))
      (fun d hd' => h1 d (List.mem_cons_of_mem _ hd'))
    simp only [extractCertLoop]
    by_cases hrc : c == rc
    · rw [if_pos hrc, ihh]
      unfold extractedNames
      rw [List.filter_cons_of_neg (by simp [colPresent_false_rc hd rc ws r c hrc])]
    · rw [if_neg hrc]
      by_cases hxx : isX (cellAt ws r c)
      · rw [if_pos hxx]
        have hlt : c - 1 < hd.length := by
          have := hx c (List.mem_cons_self c cs) hxx
          have := h1 c (List.mem_cons_self c cs)
          omega
        rw [get_opt_eq_some_getD hd (c - 1) hlt]
        rw [ihh]
        show Except.ok _ = _
        unfold extractedNames
        by_cases hemp : hd.getD (c - 1) "" == ""
        · rw [if_pos hemp, List.filter_cons_of_neg
            (by simp [colPresent_false_empty hd rc ws r c hemp])]
        · rw [if_neg hemp, List.filter_cons_of_pos
            (by simp [colPresent_true hd rc ws r c (by simpa using hrc) hxx
              (by simpa using hemp)])]
          simp
      · rw [if_neg hxx, ihh]
        unfold extractedNames
        rw [List.filter_cons_of_neg
          (by simp [colPresent_false_notX hd rc ws r c (by simpa using hxx)])]

theorem filter_colPresent_nil (hd : List String) (rc : Nat) (ws : Sheet)
    (r : Nat) (cols : List Nat)
    (h : ∀ c ∈ cols, isX (cellAt ws r c) = false) :
    extractedNames hd rc ws r cols = [] := by
  unfold extractedNames
  rw [List.filter_eq_nil_iff.mpr]
  · rfl
  · intro c hc
    simp [colPresent, h c hc]

theorem extractUnivLoop_eq (hd : List String) (rc : Nat) (ws : Sheet) (r : Nat)
    (cols : List Nat)
    (hx : ∀ c ∈ cols, isX (cellAt ws r c) = true → c ≤ hd.length)
    (h1 : ∀ c ∈ cols, 1 ≤ c)
    (hsort : cols.Pairwise (· ≤ ·)) :
    extractUnivLoop hd rc ws r cols = .ok (extractedNames hd rc ws r cols) := by
  induction cols with
  | nil => rfl
  | cons c cs ih =>
    have ihh := ih (fun d hd' => hx d (List.mem_cons_of_mem _ hd'))
      (fun d hd' => h1 d (List.mem_cons_of_mem _ hd')) (List.Pairwise.of_cons hsort)
    have hcons := List.pairwise_cons.mp hsort
    simp only [extractUnivLoop]
    by_cases hrc : c == rc
    · rw [if_pos hrc, ihh]
      unfold extractedNames
      rw [List.filter_cons_of_neg (by simp [colPresent_false_rc hd rc ws r c hrc])]
    · rw [if_neg hrc]
      by_cases hbr : hd.length < c
      · rw [if_pos hbr]
        have hall : ∀ d ∈ c :: cs, isX (cellAt ws r d) = false := by
          intro d hdm
          by_contra hb
          rw [Bool.not_eq_false] at hb
          have hdl := hx d hdm hb
          rcases List.mem_cons.mp hdm with he | hm
          · omega
          · have := hcons.1 d hm
            omega
        rw [filter_colPresent_nil hd rc ws r _ hall]
      · rw [if_neg hbr]
        by_cases hxx : isX (cellAt ws r c)
        · rw [if_pos hxx]
          have hlt : c - 1 < hd.length := by
            have := h1 c (List.mem_cons_self c cs)
            omega
          rw [get_opt_eq_some_getD hd (c - 1) hlt]
          rw [ihh]
          show Except.ok _ = _
          unfold extractedNames
          by_cases hemp : hd.getD (c - 1) "" == ""
          · rw [if_pos hemp, List.filter_cons_of_neg
              (by simp [colPresent_false_empty hd rc ws r c hemp])]
          · rw [if_neg hemp, List.filter_cons_of_pos
              (by simp [colPresent_true hd rc ws r c (by simpa using hrc) hxx
                (by simpa using hemp)])]
            simp
        · rw [if_neg hxx, ihh]
          unfold extractedNames
          rw [List.filter_cons_of_neg
            (by simp [colPresent_false_notX hd rc ws r c (by simpa using hxx)])]

/-- The per-row skill sets as a function of the worksheet. -/
def rowSkills (hd : List String) (rc : Nat) (ws : Sheet) (r : Nat) : Skills :=
  ⟨extractedNames hd rc ws r certCols, extractedNames hd rc ws r univCols⟩

theorem extractCandidateSkills_eq (hd : List String) (rc : Nat) (ws : Sheet)
    (r : Nat) (hcc : colCount ws ≤ hd.length) :
    extractCandidateSkills hd rc ws r = .ok (rowSkills hd rc ws r) := by
  have hx : ∀ c, isX (cellAt ws r c) = true → c ≤ hd.length := fun c h =>
    le_trans (le_colCount_of_isX ws r c h) hcc
  unfold extractCandidateSkills
  rw [extractCertLoop_eq hd rc ws r certCols (fun c _ => hx c) (by decide), ok_bind]
  rw [extractUnivLoop_eq hd rc ws r univCols (fun c _ => hx c) (by decide) (by decide),
    ok_bind]
  rfl

/-! ### Congruence: reads outside the result column -/

theorem any_congr {α : Type} (l : List α) (p q : α → Bool)
    (h : ∀ a ∈ l, p a = q a) : l.any p = l.any q := by
  induction l with
  | nil => rfl
  | cons x xs ih =>
    simp only [List.any_cons]
    rw [h x (List.mem_cons_self x xs), ih (fun a ha => h a (List.mem_cons_of_mem _ ha))]

theorem hasData_congr (ws1 ws2 : Sheet) (rc r : Nat)
    (ha : ∀ c, 1 ≤ c → c ≠ rc → cellAt ws1 r c = cellAt ws2 r c)
    (hc : colCount ws1 = colCount ws2) :
    hasData ws1 rc r = hasData ws2 rc r := by
  unfold hasData
  rw [maxCol_eq, maxCol_eq, hc]
  apply any_congr
  intro c hm
  have h1 : 1 ≤ c := (List.mem_range'_1.mp hm).1
  by_cases hrc : c = rc
  · simp [hrc]
  · rw [ha c h1 hrc]

theorem hasData_iff (ws : Sheet) (rc r : Nat) :
    hasData ws rc r = true ↔
      ∃ c, 1 ≤ c ∧ c ≠ rc ∧ truthy (cellAt ws r c) = true := by
  unfold hasData
  rw [List.any_eq_true]
  constructor
  · rintro ⟨c, hm, hp⟩
    rw [Bool.and_eq_true] at hp
    refine ⟨c, (List.mem_range'_1.mp hm).1, ?_, hp.2⟩
    simpa using hp.1
  · rintro ⟨c, h1, hrc, ht⟩
    have hcc := le_colCount_of_truthy ws r c ht
    refine ⟨c, List.mem_range'_1.mpr ⟨h1, ?_⟩, ?_⟩
    · rw [maxCol_eq]
      omega
    · simp [hrc, ht]

theorem extractedNames_congr (hd : List String) (rc : Nat) (ws1 ws2 : Sheet)
    (r : Nat) (cols : List Nat)
    (ha : ∀ c, 1 ≤ c → c ≠ rc → cellAt ws1 r c = cellAt ws2 r c)
    (h1 : ∀ c ∈ cols, 1 ≤ c) :
    extractedNames hd rc ws1 r cols = extractedNames hd rc ws2 r cols := by
  unfold extractedNames
  congr 1
  apply List.filter_congr
  intro c hc
  unfold colPresent
  by_cases hrc : c = rc
  · simp [hrc]
  · rw [ha c (h1 c hc) hrc]

theorem rowSkills_congr (hd : List String) (rc : Nat) (ws1 ws2 : Sheet) (r : Nat)
    (ha : ∀ c, 1 ≤ c → c ≠ rc → cellAt ws1 r c = cellAt ws2 r c) :
    rowSkills hd rc ws1 r = rowSkills hd rc ws2 r := by
  unfold rowSkills
  rw [extractedNames_congr hd rc ws1 ws2 r certCols ha (by decide),
    extractedNames_congr hd rc ws1 ws2 r univCols ha (by decide)]

/-! ### The candidate loop of generate_all_cvs -/

/-- The CV record produced for one candidate row. -/
def rowCv (hd : List String) (rc : Nat) (ws : Sheet) (r : Nat) : CvData :=
  ⟨STATIC_CV_ID, buildCvContent (rowSkills hd rc ws r)⟩

theorem generateSingleCv_eq_false (hd : List String) (rc : Nat) (ws : Sheet)
    (r : Nat) (hcc : colCount ws ≤ hd.length) :
    generateSingleCv hd rc ws r false = .ok (rowCv hd rc ws r, ws) := by
  unfold generateSingleCv
  rw [extractCandidateSkills_eq hd rc ws r hcc, ok_bind]
  rfl

theorem generateSingleCv_eq_true (hd : List String) (rc : Nat) (ws : Sheet)
    (r : Nat) (hcc : colCount ws ≤ hd.length) :
    generateSingleCv hd rc ws r true = .ok (rowCv hd rc ws r,
      setCell ws r rc (some (dumps (singleCvJson STATIC_CV_ID
        (buildCvContent (rowSkills hd rc ws r)))))) := by
  unfold generateSingleCv
  rw [extractCandidateSkills_eq hd rc ws r hcc, ok_bind]
  rfl

theorem allLoop_eq (hd : List String) (rc : Nat) (u : Bool) (ws0 : Sheet)
    (hrc1 : 1 ≤ rc) (hrc2 : rc ≤ colCount ws0) (hcc : colCount ws0 ≤ hd.length) :
    ∀ rows ws,
      (∀ r c, 1 ≤ c → c ≠ rc → cellAt ws r c = cellAt ws0 r c) →
      colCount ws = colCount ws0 →
      ∃ wsf, allLoop hd rc u rows ws =
        .ok ((rows.filter (hasData ws0 rc)).map (rowCv hd rc ws0), wsf) := by
  intro rows
  induction rows with
  | nil => exact fun ws _ _ => ⟨ws, rfl⟩
  | cons r rs ih =>
    intro ws ha hc
    have hdd : hasData ws rc r = hasData ws0 rc r :=
      hasData_congr ws ws0 rc r (fun c hc1 hne => ha r c hc1 hne) hc
    have hsk : rowSkills hd rc ws r = rowSkills hd rc ws0 r :=
      rowSkills_congr hd rc ws ws0 r (fun c hc1 hne => ha r c hc1 hne)
    have hrcv : rowCv hd rc ws r = rowCv hd rc ws0 r := by
      unfold rowCv
      rw [hsk]
    simp only [allLoop, hdd]
    by_cases hb : hasData ws0 rc r
    · rw [if_pos hb]
      cases u with
      | false =>
        obtain ⟨wsf, hrec⟩ := ih ws ha hc
        refine ⟨wsf, ?_⟩
        rw [generateSingleCv_eq_false hd rc ws r (hc ▸ hcc), ok_bind]
        show (allLoop hd rc false rs ws >>= fun p => pure (rowCv hd rc ws r :: p.1, p.2)) = _
        rw [hrec, ok_bind, hrcv]
        rw [List.filter_cons_of_pos (by simp [hb]), List.map_cons]
        rfl
      | true =>
        set ws' := setCell ws r rc (some (dumps (singleCvJson STATIC_CV_ID
          (buildCvContent (rowSkills hd rc ws r))))) with hws'
        have ha' : ∀ r' c, 1 ≤ c → c ≠ rc → cellAt ws' r' c = cellAt ws0 r' c := by
          intro r' c hc1 hne
          rw [hws', cellAt_setCell_ne ws r rc _ r' c hrc1 hc1 hne]
          exact ha r' c hc1 hne
        have hc' : colCount ws' = colCount ws0 := by
          rw [hws', colCount_setCell ws r rc _ hrc1, hc]
          omega
        obtain ⟨wsf, hrec⟩ := ih ws' ha' hc'
        refine ⟨wsf, ?_⟩
        rw [generateSingleCv_eq_true hd rc ws r (hc ▸ hcc), ok_bind]
        show (allLoop hd rc true rs ws' >>= fun p => pure (rowCv hd rc ws r :: p.1, p.2)) = _
        rw [hrec, ok_bind, hrcv]
        rw [List.filter_cons_of_pos (by simp [hb]), List.map_cons]
        rfl
    · rw [if_neg hb, List.filter_cons_of_neg (by simp [hb])]
      exact ih ws ha hc

/-- The result list of `generate_all_cvs`: one CV per candidate row with
data, in ascending row order, each extracted from the loaded worksheet. -/
theorem generateAllCvs_list (s : Sheet) (u : Bool) :
    (generateAllCvs s u).1 =
      .ok (((rowRange (loadExcel s).ws).filter
          (hasData (loadExcel s).ws (loadExcel s).resultCol)).map
        (rowCv (loadExcel s).skillHeaders (loadExcel s).resultCol (loadExcel s).ws)) := by
  obtain ⟨h1, h2, h3⟩ := loadExcel_facts s
  obtain ⟨wsf, hl⟩ := allLoop_eq (loadExcel s).skillHeaders (loadExcel s).resultCol u
    (loadExcel s).ws h1 h2 h3 (rowRange (loadExcel s).ws) (loadExcel s).ws
    (fun _ _ _ _ => rfl) rfl
  unfold generateAllCvs
  rw [hl]

theorem generateAllCvs_false_file (s : Sheet) : (generateAllCvs s false).2 = s := by
  unfold generateAllCvs
  cases allLoop (loadExcel s).skillHeaders (loadExcel s).resultCol false
      (rowRange (loadExcel s).ws) (loadExcel s).ws with
  | ok p => rfl
  | error e => rfl

/-! ### Content layout (spec side) -/

/-- Modelled from the spec: the field lines of the `content` rendering, in
the fixed order the spec declares, with the certificate and university lines
present exactly when their lists are non-empty. -/
def contentFields (sk : Skills) : List String :=
  ["氏名: " ++ STATIC_NAME, "フリガナ: " ++ STATIC_FURIGANA,
   "性別: " ++ STATIC_GENDER, "生年月日: " ++ STATIC_BIRTHDATE,
   "住所: " ++ STATIC_ADDRESS]
  ++ (if sk.certificate.isEmpty then []
      else ["資格・免許: " ++ joinComma sk.certificate])
  ++ (if sk.university.isEmpty then []
      else ["大学名: " ++ joinComma sk.university])

/-- Each field on its own line, terminated by a newline. -/
def concatLines (ls : List String) : String :=
  ls.foldr (fun l acc => l ++ "\n" ++ acc) ""

theorem buildCvContent_lines (sk : Skills) :
    buildCvContent sk = concatLines (contentFields sk) := by
  unfold buildCvContent contentFields concatLines
  by_cases h1 : sk.certificate.isEmpty <;> by_cases h2 : sk.university.isEmpty <;>
    simp [h1, h2, String.append_assoc, String.append_empty]

/-! ### Concrete worksheets used by witnesses and counterexamples -/

/-- A worksheet whose row 2 carries the result-column header inside the
certificate range (columns 1-5), with the row-3 cell of that column marked
`"x"`. -/
def sheetC1 : Sheet :=
  [[], [some "美術", some "cv generated result"], [some "x", some "x"]]

/-- A small one-candidate worksheet. -/
def sheetC2 : Sheet := [[], [some "書道"], [some "x"]]

/-- A worksheet with two candidate rows, both marked in column 1. -/
def sheetC5 : Sheet := [[], [some "美術"], [some "x"], [some "x"]]

/-- The content rendered for a candidate holding the single certificate
`"美術"`. -/
def contentC5 : String := buildCvContent ⟨["美術"], []⟩

/-- The CV record generated for each row of `sheetC5`. -/
def cvC5 : CvData := ⟨STATIC_CV_ID, contentC5⟩

/-- A worksheet with nine skill headers whose candidate row has a single
cell: the row is shorter than the declared header count. -/
def sheetC6 : Sheet :=
  [[], [some "資格A", some "資格B", some "資格C", some "資格D", some "資格E",
        some "大学A", some "大学B", some "大学C", some "大学D"], [some "x"]]

/-- The content rendered for the single (short) row of `sheetC6`. -/
def contentC6 : String := buildCvContent ⟨["資格A"], []⟩

/-! ### Claims -/

/-- Claim C1, amended: for every row of a loaded skill matrix, extraction
yields exactly the headers of the columns (certificate range 1-5,
university range 6-9, in column order) whose cell value is `"x"` after
trimming and lowercasing, whose header is non-empty, AND which are not the
result column; `colPresent` spells out these three conditions.  The claim's
original two-condition characterization fails when the result column lies
inside a category range (see the counterexample). -/
theorem extraction_presence_characterization (s : Sheet) (r : Nat) :
    extractCandidateSkills (loadExcel s).skillHeaders (loadExcel s).resultCol
      (loadExcel s).ws r =
    .ok ⟨extractedNames (loadExcel s).skillHeaders (loadExcel s).resultCol
          (loadExcel s).ws r certCols,
         extractedNames (loadExcel s).skillHeaders (loadExcel s).resultCol
          (loadExcel s).ws r univCols⟩ := by
  obtain ⟨h1, h2, h3⟩ := loadExcel_facts s
  exact extractCandidateSkills_eq _ _ _ _ h3

/-- Claim C1, counterexample to the original statement: on `sheetC1` the
result column is column 2, its header "cv generated result" is non-empty
and its row-3 cell is a marked `"x"`, yet extraction does not add that
header to the certificate set (the code also requires the column to differ
from the result column). -/
theorem extraction_presence_counterexample :
    (loadExcel sheetC1).resultCol = 2 ∧
    (loadExcel sheetC1).skillHeaders = ["美術", "cv generated result"] ∧
    isX (cellAt (loadExcel sheetC1).ws 3 2) = true ∧
    extractCandidateSkills (loadExcel sheetC1).skillHeaders
      (loadExcel sheetC1).resultCol (loadExcel sheetC1).ws 3 =
      .ok ⟨["美術"], []⟩ :=
  ⟨rfl, rfl, rfl, rfl⟩

/-- Claim C2: building the request from equal input state yields
byte-identical output, both for the serialized request string written to
the output file and for the saved workbook (which carries the per-row
result-column JSON). -/
theorem request_roundtrip_determinism (s1 s2 : Sheet) (u : Bool) (h : s1 = s2) :
    requestString s1 u = requestString s2 u ∧
    (generateAllCvs s1 u).2 = (generateAllCvs s2 u).2 := by
  subst h
  exact ⟨rfl, rfl⟩

/-- Claim C2, witness: the determinism theorem applied at a concrete
worksheet. -/
theorem request_roundtrip_determinism_witness :
    requestString sheetC2 true = requestString sheetC2 true ∧
    (generateAllCvs sheetC2 true).2 = (generateAllCvs sheetC2 true).2 :=
  request_roundtrip_determinism sheetC2 sheetC2 true rfl

/-- Claim C3: the rendered candidate content is exactly the newline-joined
field list: the five fixed profile lines (name, furigana, gender,
birthdate, address) in that order, then the certificate line only when the
certificate list is non-empty, then the university line only when the
university list is non-empty, and no other lines. -/
theorem content_layout (sk : Skills) :
    buildCvContent sk = concatLines
      (["氏名: " ++ STATIC_NAME, "フリガナ: " ++ STATIC_FURIGANA,
        "性別: " ++ STATIC_GENDER, "生年月日: " ++ STATIC_BIRTHDATE,
        "住所: " ++ STATIC_ADDRESS]
       ++ (if sk.certificate.isEmpty then []
           else ["資格・免許: " ++ joinComma sk.certificate])
       ++ (if sk.university.isEmpty then []
           else ["大学名: " ++ joinComma sk.university])) :=
  buildCvContent_lines sk

/-- Claim C4: every successful run builds a request object with exactly the
keys list_cv (the ordered CV records, each with exactly cv_id and content),
jd (a single content string), top_k (a positive integer) and custom_weights
(the four weight names mapped to their float literals). -/
theorem request_object_shape (s : Sheet) (u : Bool) (cvs : List CvData)
    (f : Sheet) (h : generateAllCvs s u = (.ok cvs, f)) :
    outputJson cvs = JValue.obj
      [("list_cv", JValue.arr (cvs.map cvJson)),
       ("jd", JValue.obj [("content", JValue.str STATIC_JD_CONTENT)]),
       ("top_k", JValue.num (toString STATIC_TOP_K)),
       ("custom_weights", JValue.obj
         [("license_score", JValue.num "0.4"),
          ("hours_score", JValue.num "0.2"),
          ("reliability_score", JValue.num "0.2"),
          ("competency_score", JValue.num "0.2")])] ∧
    (∀ cv ∈ cvs, cvJson cv = JValue.obj
      [("cv_id", JValue.str cv.cvId), ("content", JValue.str cv.content)]) ∧
    0 < STATIC_TOP_K :=
  ⟨rfl, fun _ _ => rfl, by decide⟩

/-- Claim C4, witness: the shape theorem applied to the empty workbook run. -/
theorem request_object_shape_witness :
    outputJson [] = JValue.obj
      [("list_cv", JValue.arr []),
       ("jd", JValue.obj [("content", JValue.str STATIC_JD_CONTENT)]),
       ("top_k", JValue.num (toString STATIC_TOP_K)),
       ("custom_weights", JValue.obj
         [("license_score", JValue.num "0.4"),
          ("hours_score", JValue.num "0.2"),
          ("reliability_score", JValue.num "0.2"),
          ("competency_score", JValue.num "0.2")])] ∧
    (∀ cv ∈ ([] : List CvData), cvJson cv = JValue.obj
      [("cv_id", JValue.str cv.cvId), ("content", JValue.str cv.content)]) ∧
    0 < STATIC_TOP_K :=
  request_object_shape [] false [] [] rfl

/-- Claim C5, amended: every entry of every built request carries the same
static identifier "12788"; identifiers are NOT pairwise distinct as soon as
two rows carry data (see the counterexample). -/
theorem cv_id_static (s : Sheet) (u : Bool) (cvs : List CvData) (f : Sheet)
    (h : generateAllCvs s u = (.ok cvs, f)) :
    ∀ cv ∈ cvs, cv.cvId = STATIC_CV_ID := by
  have hl := generateAllCvs_list s u
  rw [h] at hl
  simp only at hl
  cases hl
  intro cv hm
  obtain ⟨r, _, rfl⟩ := List.mem_map.mp hm
  rfl

/-- Claim C5, witness: the static-identifier theorem applied to the two-row
worksheet. -/
theorem cv_id_static_witness :
    generateAllCvs sheetC5 false = (.ok [cvC5, cvC5], sheetC5) ∧
    cvC5.cvId = STATIC_CV_ID := by
  have h : generateAllCvs sheetC5 false = (.ok [cvC5, cvC5], sheetC5) := rfl
  exact ⟨h, cv_id_static sheetC5 false [cvC5, cvC5] sheetC5 h cvC5 (by simp)⟩

/-- Claim C5, counterexample: the two distinct entries of the request built
from `sheetC5` carry the same cv_id, so the ids are not pairwise distinct. -/
theorem cv_id_static_counterexample :
    (generateAllCvs sheetC5 false).1 = .ok [cvC5, cvC5] ∧
    ¬ List.Pairwise (fun a b : CvData => a.cvId ≠ b.cvId) [cvC5, cvC5] := by
  refine ⟨rfl, ?_⟩
  intro hp
  exact (List.pairwise_cons.mp hp).1 cvC5 (by simp) rfl

/-- Claim C6, amended: a row with fewer columns than the header count does
NOT fail — missing cells read as `None`, never equal `"x"` after trimming,
so extraction succeeds on every row of every workbook and the whole run
succeeds; the source has no MalformedRowError, no try/except and no
per-row exclusion. -/
theorem short_row_never_fails (s : Sheet) (u : Bool) (r : Nat) :
    (∃ sk, extractCandidateSkills (loadExcel s).skillHeaders
      (loadExcel s).resultCol (loadExcel s).ws r = .ok sk) ∧
    ∃ cvs, (generateAllCvs s u).1 = .ok cvs := by
  obtain ⟨h1, h2, h3⟩ := loadExcel_facts s
  exact ⟨⟨_, extractCandidateSkills_eq _ _ _ _ h3⟩, ⟨_, generateAllCvs_list s u⟩⟩

/-- Claim C6, counterexample to the original statement: the candidate row of
`sheetC6` has one cell against ten declared headers, yet extraction returns
successfully (no MalformedRowError) and the run includes the row instead of
excluding it. -/
theorem short_row_never_fails_counterexample :
    (sheetC6.getD 2 []).length = 1 ∧
    (loadExcel sheetC6).skillHeaders.length = 10 ∧
    extractCandidateSkills (loadExcel sheetC6).skillHeaders
      (loadExcel sheetC6).resultCol (loadExcel sheetC6).ws 3 =
      .ok ⟨["資格A"], []⟩ ∧
    (generateAllCvs sheetC6 false).1 = .ok [⟨STATIC_CV_ID, contentC6⟩] :=
  ⟨rfl, rfl, rfl, rfl⟩

/-- Claim C7: requesting a candidate by index fails with the out-of-range
error exactly when row index+3 exceeds the loaded worksheet's max_row, and
on failure nothing else happens (no CV, the file is returned unchanged);
for every index within range the request succeeds. -/
theorem cv_by_index_range (s : Sheet) (idx : Nat) (u : Bool) :
    (maxRow (loadExcel s).ws < idx + 3 →
      generateCvByIndex s idx u =
        (.error ("Candidate index " ++ toString idx ++ " out of range"), s)) ∧
    (idx + 3 ≤ maxRow (loadExcel s).ws →
      ∃ cv ws', generateCvByIndex s idx u = (.ok cv, ws')) := by
  obtain ⟨h1, h2, h3⟩ := loadExcel_facts s
  constructor
  · intro h
    unfold generateCvByIndex
    rw [if_pos h]
  · intro h
    obtain ⟨wsx, hg⟩ : ∃ wsx, generateSingleCv (loadExcel s).skillHeaders
        (loadExcel s).resultCol (loadExcel s).ws (idx + 3) u =
        .ok (rowCv (loadExcel s).skillHeaders (loadExcel s).resultCol
          (loadExcel s).ws (idx + 3), wsx) := by
      cases u with
      | false => exact ⟨_, generateSingleCv_eq_false _ _ _ _ h3⟩
      | true => exact ⟨_, generateSingleCv_eq_true _ _ _ _ h3⟩
    refine ⟨rowCv (loadExcel s).skillHeaders (loadExcel s).resultCol
      (loadExcel s).ws (idx + 3), if u then wsx else s, ?_⟩
    unfold generateCvByIndex
    rw [if_neg (by omega), hg]

/-- Claim C7, witness: both branches of the range theorem at concrete
inputs — index 5 is beyond the four rows of `sheetC5` and fails with the
out-of-range error leaving the file unchanged, while index 0 succeeds. -/
theorem cv_by_index_range_witness :
    generateCvByIndex sheetC5 5 false =
      (.error ("Candidate index " ++ toString 5 ++ " out of range"), sheetC5) ∧
    ∃ cv ws', generateCvByIndex sheetC5 0 false = (.ok cv, ws') :=
  ⟨(cv_by_index_range sheetC5 5 false).1 (by decide),
   (cv_by_index_range sheetC5 0 false).2 (by decide)⟩

/-- Claim C8 (spec-modelled ScoreEngine): with non-negative weights of
positive sum and sub-scores in the unit interval, the combined score equals
the weighted total divided by the weight sum and lies in the unit interval;
with a non-positive weight sum the engine fails with
InvalidWeightConfigError before scoring. -/
theorem combined_score_bounds (w : WeightConfig) (sc : SubScores)
    (hw : 0 ≤ w.license_score ∧ 0 ≤ w.hours_score ∧
      0 ≤ w.reliability_score ∧ 0 ≤ w.competency_score)
    (hs : (0 ≤ sc.license ∧ sc.license ≤ 1) ∧ (0 ≤ sc.hours ∧ sc.hours ≤ 1) ∧
      (0 ≤ sc.reliability ∧ sc.reliability ≤ 1) ∧
      (0 ≤ sc.competency ∧ sc.competency ≤ 1)) :
    (0 < weightSum w →
      combinedScore w sc = .ok (weightedTotal w sc / weightSum w) ∧
      0 ≤ weightedTotal w sc / weightSum w ∧
      weightedTotal w sc / weightSum w ≤ 1) ∧
    (¬ 0 < weightSum w →
      combinedScore w sc = .error "InvalidWeightConfigError") := by
  obtain ⟨hw1, hw2, hw3, hw4⟩ := hw
  obtain ⟨⟨a1, a2⟩, ⟨b1, b2⟩, ⟨c1, c2⟩, ⟨d1, d2⟩⟩ := hs
  constructor
  · intro hpos
    refine ⟨by unfold combinedScore; rw [if_pos hpos], ?_, ?_⟩
    · apply div_nonneg _ (le_of_lt hpos)
      exact add_nonneg (add_nonneg (add_nonneg (mul_nonneg hw1 a1)
        (mul_nonneg hw2 b1)) (mul_nonneg hw3 c1)) (mul_nonneg hw4 d1)
    · rw [div_le_one hpos]
      exact add_le_add (add_le_add (add_le_add
        (mul_le_of_le_one_right hw1 a2) (mul_le_of_le_one_right hw2 b2))
        (mul_le_of_le_one_right hw3 c2)) (mul_le_of_le_one_right hw4 d2)
  · intro hneg
    unfold combinedScore
    rw [if_neg hneg]

/-- Claim C8, witness: the spec scenario — the static weights
(0.4, 0.2, 0.2, 0.2) with sub-scores (1.0, 0.5, 0.5, 0.5) combine to 0.7. -/
theorem combined_score_bounds_witness :
    combinedScore staticCustomWeights ⟨1, 1 / 2, 1 / 2, 1 / 2⟩ =
      .ok (7 / 10) := by
  obtain ⟨hp, _⟩ := combined_score_bounds staticCustomWeights ⟨1, 1 / 2, 1 / 2, 1 / 2⟩
    (by norm_num [staticCustomWeights]) (by norm_num)
  obtain ⟨he, _, _⟩ := hp (by norm_num [weightSum, staticCustomWeights])
  rw [he]
  norm_num [weightedTotal, weightSum, staticCustomWeights]

/-- Claim C9: a run with update_excel set to false leaves the file exactly
as it was and returns the same CV data as the update_excel=true run over
the same workbook. -/
theorem no_update_frame (s : Sheet) :
    generateAllCvs s false = ((generateAllCvs s true).1, s) := by
  have h1 := generateAllCvs_list s false
  have h2 := generateAllCvs_list s true
  exact Prod.ext_iff.mpr ⟨by rw [h1, h2], generateAllCvs_false_file s⟩

/-- Claim C10: the run includes exactly the rows from row 3 up to max_row
with a truthy cell outside the result column — one entry per such row, in
ascending row order — and silently skips every other row; has_data holds
iff some non-result column of the row carries a non-empty value. -/
theorem row_selection (s : Sheet) (u : Bool) :
    (generateAllCvs s u).1 =
      .ok (((rowRange (loadExcel s).ws).filter
          (hasData (loadExcel s).ws (loadExcel s).resultCol)).map
        (rowCv (loadExcel s).skillHeaders (loadExcel s).resultCol
          (loadExcel s).ws)) ∧
    (∀ r, hasData (loadExcel s).ws (loadExcel s).resultCol r = true ↔
      ∃ c, 1 ≤ c ∧ c ≠ (loadExcel s).resultCol ∧
        truthy (cellAt (loadExcel s).ws r c) = true) ∧
    rowRange (loadExcel s).ws =
      List.range' 3 (maxRow (loadExcel s).ws - 2) :=
  ⟨generateAllCvs_list s u,
   fun r => hasData_iff (loadExcel s).ws (loadExcel s).resultCol r, rfl⟩

end CVGen
